import Mathlib

/-!
Verification of the metric-extraction, scoring and aggregation pipeline of
`pr_quality_dashboard.py`.

Conventions of the shallow embedding:
* Python floats are modelled as exact rationals (`ℚ`) in the aggregation
  layer and as reals (`ℝ`) in the scoring layer, where `math.log1p` appears.
* Timestamps (`datetime` values) are modelled as integers on a fixed time
  axis; only their ordering and differences matter to the embedded code.
* `None` is modelled by `Option.none`.
* Raw timestamp strings, which `parse_iso8601` either parses, maps to `None`
  (missing or empty) or rejects with a `ValueError`, are modelled by the
  inductive `RawTS`; a raised Python exception is the `Except.error` case.
-/

/-- A raw timestamp field as it arrives from the GitHub API: absent or empty
(`null`), a well-formed ISO-8601 string standing for the instant `t`
(`valid t`), or a non-parseable string (`malformed`). -/
inductive RawTS where
  | null : RawTS
  | valid (t : ℤ) : RawTS
  | malformed : RawTS
deriving DecidableEq

/-- The Python exceptions the embedded fragment can raise. -/
inductive PyError where
  | valueError : PyError
deriving DecidableEq

/-- Embeds `parse_iso8601` (lines 78-81): falsy input (missing or empty
string) returns `None`; a well-formed string parses; anything else makes
`datetime.fromisoformat` raise `ValueError`. -/
def parse_iso8601 (value : RawTS) : Except PyError (Option ℤ) :=
  match value with
  | RawTS.null => Except.ok none
  | RawTS.valid t => Except.ok (some t)
  | RawTS.malformed => Except.error PyError.valueError

/-- Embeds `percentile`'s use of Python list indexing `xs[i]`: a negative
index counts from the end, an out-of-range index raises `IndexError`
(modelled as `none`; the embedded claims never reach that case). -/
def pyGet (xs : List ℚ) (i : ℤ) : Option ℚ :=
  let j := if i < 0 then i + xs.length else i
  if 0 ≤ j ∧ j < xs.length then xs.get? j.toNat else none

/-- Embeds `percentile` (lines 89-102): empty list gives `None`, a singleton
gives its element, otherwise linear interpolation at rank
`k = (n - 1) * pct / 100` over a sorted copy. When `floor k = ceil k` the
code indexes with `int(k)`, which equals `floor k` there. -/
def percentile (values : List ℚ) (pct : ℚ) : Option ℚ :=
  if values = [] then none
  else if values.length = 1 then values.get? 0
  else
    let values_sorted := values.insertionSort (fun a b => a ≤ b)
    let k : ℚ := ((values_sorted.length : ℚ) - 1) * (pct / 100)
    let f : ℤ := ⌊k⌋
    let c : ℤ := ⌈k⌉
    if f = c then pyGet values_sorted f
    else
      match pyGet values_sorted f, pyGet values_sorted c with
      | some v0, some v1 => some (v0 * ((c : ℚ) - k) + v1 * (k - (f : ℚ)))
      | _, _ => none

/-- Embeds Python's `statistics.median`: middle element of a sorted copy for
odd length, mean of the two middle elements for even length (callers guard
against the empty list). -/
def pymedian (values : List ℚ) : ℚ :=
  let vs := values.insertionSort (fun a b => a ≤ b)
  let n := vs.length
  if n % 2 = 1 then vs.getD (n / 2) 0
  else (vs.getD (n / 2 - 1) 0 + vs.getD (n / 2) 0) / 2

/-- Embeds `safe_median` (lines 105-108). -/
def safe_median (values : List ℚ) : Option ℚ :=
  if values = [] then none else some (pymedian values)

/-- The standard median of an odd-length list, stated from the spec's words
("the standard median for odd-length sequences"): the middle element of a
sorted copy. Comparison target for the percentile claim. -/
def stdMedian (values : List ℚ) : Option ℚ :=
  (values.insertionSort (fun a b => a ≤ b)).get? (values.length / 2)

/-- A commit as `compute_churn_ratio` sees it: the `stats` additions and
deletions of the commit details (absent stats default to 0) and the
committer timestamp (`none` when missing). -/
structure Commit where
  additions : ℕ
  deletions : ℕ
  date : Option ℤ
deriving DecidableEq

/-- One iteration of the accumulation loop of `compute_churn_ratio`
(lines 525-536): the pair is `(total_changes, after_review_changes)`. -/
def churn_step (first_review_time : Option ℤ) (acc : ℕ × ℕ) (c : Commit) : ℕ × ℕ :=
  let commit_changes := c.additions + c.deletions
  ( acc.1 + commit_changes,
    match first_review_time, c.date with
    | some frt, some t => if frt < t then acc.2 + commit_changes else acc.2
    | _, _ => acc.2 )

/-- Embeds `compute_churn_ratio` (lines 509-540) after the commit list has
been fetched: `None` when there are no commits at all, otherwise at most
`max_commits_check` commits are examined, and the result is
`after_review_changes / total_changes`, defined as `0.0` when
`total_changes` is `0`. -/
def compute_churn_ratio (commits : List Commit) (first_review_time : Option ℤ)
    (max_commits_check : ℕ) : Option ℚ :=
  if commits = [] then none
  else
    let acc := (commits.take max_commits_check).foldl (churn_step first_review_time) (0, 0)
    if acc.1 = 0 then some 0 else some ((acc.2 : ℚ) / (acc.1 : ℚ))

/-- The total line-changes over the examined (capped) commit window of
`compute_churn_ratio`. -/
def churn_total (commits : List Commit) (max_commits_check : ℕ) : ℕ :=
  ((commits.take max_commits_check).map (fun c => c.additions + c.deletions)).sum

/-- A review as `compute_first_review_time` sees it: the reviewer's login
(`none` when the `user` object is missing), the review state, and the raw
`submitted_at` field. -/
structure Review where
  user_login : Option String
  state : String
  submitted_at : RawTS
deriving DecidableEq

/-- The `times` list built by the loop of `compute_first_review_time`
(lines 498-506): author reviews are skipped before parsing; for the rest,
`parse_iso8601` runs (propagating `ValueError`) and only truthy results are
kept. -/
def review_times (reviews : List Review) (author : String) : Except PyError (List ℤ) :=
  match reviews with
  | [] => Except.ok []
  | r :: rest =>
    if r.user_login = some author then review_times rest author
    else
      match parse_iso8601 r.submitted_at with
      | Except.error e => Except.error e
      | Except.ok none => review_times rest author
      | Except.ok (some t) =>
        match review_times rest author with
        | Except.error e => Except.error e
        | Except.ok ts => Except.ok (t :: ts)

/-- Embeds `compute_first_review_time` (lines 497-506):
`min(times) if times else None`. -/
def compute_first_review_time (reviews : List Review) (author : String) :
    Except PyError (Option ℤ) :=
  match review_times reviews author with
  | Except.error e => Except.error e
  | Except.ok ts => Except.ok ts.min?

/-- The slice of a scored PR entry (`pr_entry` in `main`, lines 715-731)
that `build_deltas` consumes. -/
structure PREntry where
  score : ℚ
  ci_failed : Bool
  churn_ratio : Option ℚ
  size : ℚ
  merged_at : Option ℤ
deriving DecidableEq

/-- One before/after/delta record of the dashboard payload. The dict values
in the code are formatted strings; the formatting (`"{:.1f}".format` etc.)
is presentation-only and the numeric values are kept here. -/
structure DeltaRecord where
  label : String
  before : Option ℚ
  after : Option ℚ
  delta : Option ℚ
deriving DecidableEq

/-- The `before_prs` filter predicate of `build_deltas` (line 596):
`pr.get("merged_at") and pr["merged_at"] < adoption_date`. -/
def merged_before (adoption_date : ℤ) (pr : PREntry) : Bool :=
  match pr.merged_at with
  | some m => decide (m < adoption_date)
  | none => false

/-- The `after_prs` filter predicate of `build_deltas` (line 597):
`pr.get("merged_at") and pr["merged_at"] >= adoption_date`. -/
def merged_after (adoption_date : ℤ) (pr : PREntry) : Bool :=
  match pr.merged_at with
  | some m => decide (adoption_date ≤ m)
  | none => false

/-- The "before" partition of `build_deltas` (line 596). -/
def before_prs (prs : List PREntry) (adoption_date : ℤ) : List PREntry :=
  prs.filter (merged_before adoption_date)

/-- The "after" partition of `build_deltas` (line 597). -/
def after_prs (prs : List PREntry) (adoption_date : ℤ) : List PREntry :=
  prs.filter (merged_after adoption_date)

/-- Embeds the inner `median_of` of `build_deltas` (lines 599-601): median
of the defined values of one field, `None` when no value is defined. -/
def median_of (get : PREntry → Option ℚ) (values : List PREntry) : Option ℚ :=
  let filtered := values.filterMap get
  if filtered = [] then none else safe_median filtered

/-- Embeds the inner `rate_of` of `build_deltas` (lines 603-607). -/
def rate_of (get : PREntry → Bool) (values : List PREntry) : Option ℚ :=
  if values = [] then none
  else some ((values.countP get : ℚ) / (values.length : ℚ))

/-- Embeds `format_delta` (lines 580-584) on the numeric values: if either
side is absent everything is absent, otherwise `delta = after - before`.
The `fmt.format` string rendering is presentation-only and is dropped. -/
def format_delta (before after : Option ℚ) : Option ℚ × Option ℚ × Option ℚ :=
  match before, after with
  | some b, some a => (some b, some a, some (a - b))
  | _, _ => (none, none, none)

/-- Embeds `build_deltas` (lines 587-630). -/
def build_deltas (prs : List PREntry) (adoption_date : Option ℤ) : List DeltaRecord :=
  match adoption_date with
  | none =>
    [⟨"Median Score", none, none, none⟩,
     ⟨"CI Fail Rate", none, none, none⟩,
     ⟨"Median Churn", none, none, none⟩,
     ⟨"Median Size", none, none, none⟩]
  | some ad =>
    let bp := before_prs prs ad
    let ap := after_prs prs ad
    let s := format_delta (median_of (fun pr => some pr.score) bp)
                          (median_of (fun pr => some pr.score) ap)
    let c := format_delta (rate_of (fun pr => pr.ci_failed) bp)
                          (rate_of (fun pr => pr.ci_failed) ap)
    let h := format_delta (median_of (fun pr => pr.churn_ratio) bp)
                          (median_of (fun pr => pr.churn_ratio) ap)
    let z := format_delta (median_of (fun pr => some pr.size) bp)
                          (median_of (fun pr => some pr.size) ap)
    [⟨"Median Score", s.1, s.2.1, s.2.2⟩,
     ⟨"CI Fail Rate", c.1, c.2.1, c.2.2⟩,
     ⟨"Median Churn", h.1, h.2.1, h.2.2⟩,
     ⟨"Median Size", z.1, z.2.1, z.2.2⟩]

/-- The raw PR fields whose extraction in `main`'s loop can fail: the PR
number and the two timestamps `main` parses (lines 690-691). -/
structure RawPR where
  number : ℕ
  merged_at : RawTS
  created_at : RawTS
deriving DecidableEq

/-- The per-PR extraction result of `main`'s loop that depends on the parsed
timestamps (timestamps in seconds; `time_to_merge_hours` as in
lines 697-699). -/
structure ExtractedPR where
  number : ℕ
  merged_at : Option ℤ
  created_at : Option ℤ
  time_to_merge_hours : Option ℚ
deriving DecidableEq

/-- The timestamp extraction `main` performs for one PR (lines 690-699):
`parse_iso8601` runs unguarded, so a malformed timestamp raises. -/
def extract_pr (pr : RawPR) : Except PyError ExtractedPR :=
  match parse_iso8601 pr.merged_at with
  | Except.error e => Except.error e
  | Except.ok merged =>
    match parse_iso8601 pr.created_at with
    | Except.error e => Except.error e
    | Except.ok created =>
      Except.ok ⟨pr.number, merged, created,
        match created, merged with
        | some c, some m => some (((m - c : ℤ) : ℚ) / 3600)
        | _, _ => none⟩

/-- The `for pr in merged_prs` loop of `main` (lines 672-732) as far as
extraction is concerned: there is no `try`/`except` around the body, so the
first raised exception propagates and the `processed_prs` accumulated so
far are discarded with the whole run. -/
def process_prs (prs : List RawPR) : Except PyError (List ExtractedPR) :=
  match prs with
  | [] => Except.ok []
  | pr :: rest =>
    match extract_pr pr with
    | Except.error e => Except.error e
    | Except.ok entry =>
      match process_prs rest with
      | Except.error e => Except.error e
      | Except.ok entries => Except.ok (entry :: entries)

/-- The lookback cutoff of `main` (line 667):
`since = dt.datetime.now(...) - dt.timedelta(days=30 * months)`, with the
time axis in days and `now` standing for the ambient wall-clock reading. -/
def lookback_since (now : ℤ) (months : ℕ) : ℤ :=
  now - 30 * months

/-- The weekly-bucket admission test of `main` (line 734):
`merged_at and merged_at >= since`. -/
def in_lookback (merged_at : Option ℤ) (now : ℤ) (months : ℕ) : Bool :=
  match merged_at with
  | some m => decide (lookback_since now months ≤ m)
  | none => false

/-- The metrics dict handed to `score_pr` (built in `main`, lines 701-710).
Counts are naturals; the three optional signals are `none` exactly when the
code stores `None`. -/
structure PRMetrics where
  additions : ℕ
  deletions : ℕ
  files_changed : ℕ
  review_rounds : ℕ
  churn_ratio : Option ℝ
  time_to_first_review_hours : Option ℝ
  time_to_merge_hours : Option ℝ
  ci_failed : Bool

/-- The component map returned by `score_pr` (lines 170-178). -/
structure RiskComponents where
  size_risk : ℝ
  files_risk : ℝ
  review_rounds_risk : ℝ
  churn_risk : ℝ
  tfr_risk : ℝ
  ttm_risk : ℝ
  ci_risk : ℝ

/-- Embeds `clamp` (lines 111-112). -/
noncomputable def clamp (value min_value max_value : ℝ) : ℝ :=
  max min_value (min max_value value)

/-- Line 132: `clamp(math.log1p(size) / math.log1p(2000), 0.0, 1.0)`. -/
noncomputable def size_risk (additions deletions : ℕ) : ℝ :=
  clamp (Real.log (1 + ((additions : ℝ) + (deletions : ℝ))) / Real.log (1 + 2000)) 0 1

/-- Line 133: `clamp(files_changed / 50.0, 0.0, 1.0)`. -/
noncomputable def files_risk (files_changed : ℕ) : ℝ :=
  clamp ((files_changed : ℝ) / 50) 0 1

/-- Line 134: `clamp(review_rounds / 3.0, 0.0, 1.0)`. -/
noncomputable def review_rounds_risk (review_rounds : ℕ) : ℝ :=
  clamp ((review_rounds : ℝ) / 3) 0 1

/-- Line 135: `clamp(churn_ratio / 0.5, 0.0, 1.0)`, where line 126 turned an
absent (or zero) `churn_ratio` into `0.0` via `or 0.0`. -/
noncomputable def churn_risk (churn_ratio : Option ℝ) : ℝ :=
  clamp (churn_ratio.getD 0 / 0.5) 0 1

/-- Lines 137-140: `0.5` when `time_to_first_review_hours` is `None`, else
`clamp(hours / 72.0, 0.0, 1.0)`. -/
noncomputable def tfr_risk (time_to_first_review_hours : Option ℝ) : ℝ :=
  match time_to_first_review_hours with
  | none => 0.5
  | some hours => clamp (hours / 72) 0 1

/-- Lines 142-145: `0.5` when `time_to_merge_hours` is `None`, else
`clamp(hours / 240.0, 0.0, 1.0)`. -/
noncomputable def ttm_risk (time_to_merge_hours : Option ℝ) : ℝ :=
  match time_to_merge_hours with
  | none => 0.5
  | some hours => clamp (hours / 240) 0 1

/-- Line 147: `1.0 if ci_failed else 0.0`. -/
noncomputable def ci_risk (ci_failed : Bool) : ℝ :=
  if ci_failed then 1 else 0

/-- The weighted risk sum of `score_pr` (lines 149-167), with the weight
dict inlined at its use sites. -/
noncomputable def pr_risk (m : PRMetrics) : ℝ :=
  size_risk m.additions m.deletions * 0.20
    + files_risk m.files_changed * 0.10
    + review_rounds_risk m.review_rounds * 0.20
    + churn_risk m.churn_ratio * 0.15
    + tfr_risk m.time_to_first_review_hours * 0.10
    + ttm_risk m.time_to_merge_hours * 0.15
    + ci_risk m.ci_failed * 0.10

/-- Embeds `score_pr` (lines 115-179): the clamped score and the component
map. -/
noncomputable def score_pr (m : PRMetrics) : ℝ × RiskComponents :=
  (clamp (100 * (1 - pr_risk m)) 0 100,
   ⟨size_risk m.additions m.deletions,
    files_risk m.files_changed,
    review_rounds_risk m.review_rounds,
    churn_risk m.churn_ratio,
    tfr_risk m.time_to_first_review_hours,
    ttm_risk m.time_to_merge_hours,
    ci_risk m.ci_failed⟩)

/-- The Example A metrics record of the spec:
`{size=150, files=5, rounds=0, churn=0.0, time_to_first_review=2h,
time_to_merge=10h, ci_failed=false}`. -/
noncomputable def exampleA : PRMetrics :=
  ⟨150, 0, 5, 0, some 0, some 2, some 10, false⟩

theorem le_clamp (value min_value max_value : ℝ) : min_value ≤ clamp value min_value max_value :=
  le_max_left _ _

theorem clamp_le (value : ℝ) {min_value max_value : ℝ} (h : min_value ≤ max_value) :
    clamp value min_value max_value ≤ max_value :=
  max_le h (min_le_left _ _)

theorem clamp_mono {x y : ℝ} (min_value max_value : ℝ) (h : x ≤ y) :
    clamp x min_value max_value ≤ clamp y min_value max_value :=
  max_le_max le_rfl (min_le_min le_rfl h)

theorem churn_foldl_fst (first_review_time : Option ℤ) (l : List Commit) :
    ∀ acc : ℕ × ℕ, (l.foldl (churn_step first_review_time) acc).1 =
      acc.1 + (l.map (fun c => c.additions + c.deletions)).sum := by
  induction l with
  | nil => intro acc; simp
  | cons c rest ih =>
    intro acc
    rw [List.foldl_cons, ih, List.map_cons, List.sum_cons]
    simp only [churn_step]
    omega

theorem churn_foldl_snd_le (first_review_time : Option ℤ) (l : List Commit) :
    ∀ acc : ℕ × ℕ, acc.2 ≤ acc.1 →
      (l.foldl (churn_step first_review_time) acc).2 ≤
        (l.foldl (churn_step first_review_time) acc).1 := by
  induction l with
  | nil => intro acc h; simpa using h
  | cons c rest ih =>
    intro acc h
    simp only [List.foldl_cons]
    apply ih
    simp only [churn_step]
    rcases first_review_time with _ | frt <;> rcases c.date with _ | t <;> simp <;> try omega
    split <;> omega

/-- Claim C3 counterexample: with a single commit of 10 changed lines and no
first review, the examined total is 10, not 0, yet the returned ratio is
0.0 — the "0.0 exactly when the total is 0" biconditional fails in the
only-if direction. -/
theorem churn_zero_with_nonzero_total :
    compute_churn_ratio [⟨10, 0, some 5⟩] none 20 = some 0 ∧
      churn_total [⟨10, 0, some 5⟩] 20 = 10 := by
  constructor
  · norm_num [compute_churn_ratio, churn_step]
  · norm_num [churn_total]

/-- Claim C3 (amended): for every commit list that is non-empty after the
cap is applied, `compute_churn_ratio` returns a defined ratio in `[0, 1]`,
and it returns 0.0 whenever the total line-changes over the examined
commits is 0 (it can also return 0.0 with a nonzero total, when no examined
commit postdates the first review). -/
theorem compute_churn_ratio_range (commits : List Commit) (first_review_time : Option ℤ)
    (max_commits_check : ℕ) (h : commits.take max_commits_check ≠ []) :
    ∃ r : ℚ, compute_churn_ratio commits first_review_time max_commits_check = some r ∧
      0 ≤ r ∧ r ≤ 1 ∧ (churn_total commits max_commits_check = 0 → r = 0) := by
  have hne : commits ≠ [] := by
    intro hc
    rw [hc] at h
    simp at h
  rw [compute_churn_ratio, if_neg hne]
  set acc := (commits.take max_commits_check).foldl (churn_step first_review_time) (0, 0)
    with hacc
  have hfst : acc.1 = churn_total commits max_commits_check := by
    rw [hacc, churn_foldl_fst]
    simp [churn_total]
  have hle : acc.2 ≤ acc.1 := churn_foldl_snd_le _ _ (0, 0) (le_refl 0)
  by_cases hz : acc.1 = 0
  · rw [if_pos hz]
    exact ⟨0, rfl, le_refl 0, zero_le_one, fun _ => rfl⟩
  · rw [if_neg hz]
    have hpos : (0 : ℚ) < (acc.1 : ℚ) := by
      exact_mod_cast Nat.pos_of_ne_zero hz
    refine ⟨(acc.2 : ℚ) / (acc.1 : ℚ), rfl, by positivity, ?_, ?_⟩
    · rw [div_le_one hpos]
      exact_mod_cast hle
    · intro h0
      exact absurd (hfst.trans h0) hz

/-- Witness for C3's amended theorem at a concrete input: a single commit
that survives the cap yields a defined ratio. -/
theorem compute_churn_ratio_range_witness :
    compute_churn_ratio [⟨3, 2, some 10⟩] none 20 ≠ none := by
  obtain ⟨r, hr, -, -, -⟩ := compute_churn_ratio_range [⟨3, 2, some 10⟩] none 20 (by decide)
  rw [hr]
  exact Option.some_ne_none r

theorem percentile_odd (values : List ℚ) (hlen : 2 ≤ values.length)
    (hodd : values.length % 2 = 1) :
    percentile values 50 =
      (values.insertionSort (fun a b => a ≤ b)).get? (values.length / 2) := by
  have hne : values ≠ [] := by
    intro h
    rw [h] at hlen
    simp at hlen
  have h1 : values.length ≠ 1 := by omega
  set vs := values.insertionSort (fun a b => a ≤ b) with hvs
  have hlvs : vs.length = values.length := List.length_insertionSort _ _
  set m := values.length / 2 with hmdef
  have hn : values.length = 2 * m + 1 := by omega
  have hk : ((vs.length : ℚ) - 1) * ((50 : ℚ) / 100) = (m : ℚ) := by
    rw [hlvs, hn]
    push_cast
    ring
  simp only [percentile, if_neg hne, if_neg h1]
  rw [← hvs, hk, Int.floor_natCast, Int.ceil_natCast, if_pos rfl]
  simp only [pyGet]
  have hmnn : ¬((m : ℤ) < 0) := by
    simp
  rw [if_neg hmnn]
  have hcond : (0 : ℤ) ≤ (m : ℤ) ∧ (m : ℤ) < (vs.length : ℤ) := by
    constructor
    · exact Int.natCast_nonneg m
    · exact_mod_cast by omega
  rw [if_pos hcond, Int.toNat_natCast]

/-- Claim C5: `percentile` on the empty list is absent for every `p`; on a
singleton it returns the element for every `p`; and at `p = 50` on an
odd-length list it equals the standard median. -/
theorem percentile_spec_props :
    (∀ p : ℚ, percentile [] p = none) ∧
    (∀ (x : ℚ) (p : ℚ), percentile [x] p = some x) ∧
    (∀ values : List ℚ, values.length % 2 = 1 →
      percentile values 50 = stdMedian values) := by
  refine ⟨fun p => rfl, fun x p => rfl, ?_⟩
  intro values hodd
  rcases values with _ | ⟨v1, _ | ⟨v2, rest⟩⟩
  · simp at hodd
  · simp [percentile, stdMedian, List.insertionSort, List.orderedInsert]
  · exact percentile_odd (v1 :: v2 :: rest) (by simp) hodd

/-- Witness for C5 at a concrete input: the odd-length list `[3, 1, 2]`. -/
theorem percentile_spec_props_witness :
    percentile [3, 1, 2] 50 = stdMedian [3, 1, 2] ∧ ([3, 1, 2] : List ℚ).length % 2 = 1 :=
  ⟨percentile_spec_props.2.2 [3, 1, 2] (by norm_num), by norm_num⟩

theorem clamp01_mem (x : ℝ) : 0 ≤ clamp x 0 1 ∧ clamp x 0 1 ≤ 1 :=
  ⟨le_clamp _ _ _, clamp_le _ zero_le_one⟩

theorem size_risk_mem (a d : ℕ) : 0 ≤ size_risk a d ∧ size_risk a d ≤ 1 := by
  simp only [size_risk]
  exact clamp01_mem _

theorem files_risk_mem (f : ℕ) : 0 ≤ files_risk f ∧ files_risk f ≤ 1 := by
  simp only [files_risk]
  exact clamp01_mem _

theorem review_rounds_risk_mem (r : ℕ) :
    0 ≤ review_rounds_risk r ∧ review_rounds_risk r ≤ 1 := by
  simp only [review_rounds_risk]
  exact clamp01_mem _

theorem churn_risk_mem (c : Option ℝ) : 0 ≤ churn_risk c ∧ churn_risk c ≤ 1 := by
  simp only [churn_risk]
  exact clamp01_mem _

theorem tfr_risk_mem (t : Option ℝ) : 0 ≤ tfr_risk t ∧ tfr_risk t ≤ 1 := by
  cases t with
  | none => norm_num [tfr_risk]
  | some h =>
    simp only [tfr_risk]
    exact clamp01_mem _

theorem ttm_risk_mem (t : Option ℝ) : 0 ≤ ttm_risk t ∧ ttm_risk t ≤ 1 := by
  cases t with
  | none => norm_num [ttm_risk]
  | some h =>
    simp only [ttm_risk]
    exact clamp01_mem _

theorem ci_risk_mem (b : Bool) : 0 ≤ ci_risk b ∧ ci_risk b ≤ 1 := by
  cases b <;> norm_num [ci_risk]

/-- Claim C1: for every metrics record within the documented input domain,
the score lies in `[0, 100]` and every risk component of the returned
component map lies in `[0, 1]`. -/
theorem score_pr_in_bounds (m : PRMetrics)
    (_hchurn : ∀ c ∈ m.churn_ratio, 0 ≤ c ∧ c ≤ 1)
    (_htfr : ∀ t ∈ m.time_to_first_review_hours, 0 ≤ t)
    (_httm : ∀ t ∈ m.time_to_merge_hours, 0 ≤ t) :
    (0 ≤ (score_pr m).1 ∧ (score_pr m).1 ≤ 100) ∧
    (0 ≤ (score_pr m).2.size_risk ∧ (score_pr m).2.size_risk ≤ 1) ∧
    (0 ≤ (score_pr m).2.files_risk ∧ (score_pr m).2.files_risk ≤ 1) ∧
    (0 ≤ (score_pr m).2.review_rounds_risk ∧ (score_pr m).2.review_rounds_risk ≤ 1) ∧
    (0 ≤ (score_pr m).2.churn_risk ∧ (score_pr m).2.churn_risk ≤ 1) ∧
    (0 ≤ (score_pr m).2.tfr_risk ∧ (score_pr m).2.tfr_risk ≤ 1) ∧
    (0 ≤ (score_pr m).2.ttm_risk ∧ (score_pr m).2.ttm_risk ≤ 1) ∧
    (0 ≤ (score_pr m).2.ci_risk ∧ (score_pr m).2.ci_risk ≤ 1) := by
  simp only [score_pr]
  exact ⟨⟨le_clamp _ _ _, clamp_le _ (by norm_num)⟩,
    size_risk_mem _ _, files_risk_mem _, review_rounds_risk_mem _, churn_risk_mem _,
    tfr_risk_mem _, ttm_risk_mem _, ci_risk_mem _⟩

/-- Witness for C1 at a concrete metrics record. -/
theorem score_pr_in_bounds_witness :
    0 ≤ (score_pr ⟨150, 0, 5, 0, some 0, some 2, some 10, false⟩).1 ∧
      (score_pr ⟨150, 0, 5, 0, some 0, some 2, some 10, false⟩).1 ≤ 100 :=
  (score_pr_in_bounds ⟨150, 0, 5, 0, some 0, some 2, some 10, false⟩
    (by
      intro c hc
      rw [Option.mem_some_iff] at hc
      rw [← hc]
      norm_num)
    (by
      intro t ht
      rw [Option.mem_some_iff] at ht
      rw [← ht]
      norm_num)
    (by
      intro t ht
      rw [Option.mem_some_iff] at ht
      rw [← ht]
      norm_num)).1

theorem size_risk_mono {a d a' d' : ℕ} (h : a + d ≤ a' + d') :
    size_risk a d ≤ size_risk a' d' := by
  simp only [size_risk]
  apply clamp_mono
  have hd : (0 : ℝ) < Real.log (1 + 2000) := Real.log_pos (by norm_num)
  rw [div_le_div_iff_of_pos_right hd]
  apply Real.log_le_log (by positivity)
  have hc : (a : ℝ) + (d : ℝ) ≤ (a' : ℝ) + (d' : ℝ) := by exact_mod_cast h
  linarith

theorem files_risk_mono {f f' : ℕ} (h : f ≤ f') : files_risk f ≤ files_risk f' := by
  simp only [files_risk]
  apply clamp_mono
  gcongr

theorem review_rounds_risk_mono {r r' : ℕ} (h : r ≤ r') :
    review_rounds_risk r ≤ review_rounds_risk r' := by
  simp only [review_rounds_risk]
  apply clamp_mono
  gcongr

theorem churn_risk_mono {c c' : ℝ} (h : c ≤ c') :
    churn_risk (some c) ≤ churn_risk (some c') := by
  simp only [churn_risk, Option.getD_some]
  apply clamp_mono
  gcongr

theorem tfr_risk_mono {t t' : ℝ} (h : t ≤ t') : tfr_risk (some t) ≤ tfr_risk (some t') := by
  simp only [tfr_risk]
  apply clamp_mono
  gcongr

theorem ttm_risk_mono {t t' : ℝ} (h : t ≤ t') : ttm_risk (some t) ≤ ttm_risk (some t') := by
  simp only [ttm_risk]
  apply clamp_mono
  gcongr

theorem pr_risk_le_of_components {m₁ m₂ : PRMetrics}
    (h1 : size_risk m₁.additions m₁.deletions ≤ size_risk m₂.additions m₂.deletions)
    (h2 : files_risk m₁.files_changed ≤ files_risk m₂.files_changed)
    (h3 : review_rounds_risk m₁.review_rounds ≤ review_rounds_risk m₂.review_rounds)
    (h4 : churn_risk m₁.churn_ratio ≤ churn_risk m₂.churn_ratio)
    (h5 : tfr_risk m₁.time_to_first_review_hours ≤ tfr_risk m₂.time_to_first_review_hours)
    (h6 : ttm_risk m₁.time_to_merge_hours ≤ ttm_risk m₂.time_to_merge_hours)
    (h7 : ci_risk m₁.ci_failed ≤ ci_risk m₂.ci_failed) :
    pr_risk m₁ ≤ pr_risk m₂ := by
  simp only [pr_risk]
  linarith

theorem score_pr_le_of_risk {m₁ m₂ : PRMetrics} (h : pr_risk m₁ ≤ pr_risk m₂) :
    (score_pr m₂).1 ≤ (score_pr m₁).1 := by
  simp only [score_pr]
  exact clamp_mono _ _ (by linarith)

/-- Claim C2: the score is monotonically non-increasing in each single risk
input: a larger size (additions plus deletions), more changed files, more
review rounds, a larger present churn ratio, a larger present
time-to-first-review or time-to-merge, or `ci_failed` going from false to
true, with all other fields held fixed, never increases the score. -/
theorem score_pr_monotone :
    (∀ (m : PRMetrics) (a' d' : ℕ), m.additions + m.deletions ≤ a' + d' →
      (score_pr { m with additions := a', deletions := d' }).1 ≤ (score_pr m).1) ∧
    (∀ (m : PRMetrics) (f' : ℕ), m.files_changed ≤ f' →
      (score_pr { m with files_changed := f' }).1 ≤ (score_pr m).1) ∧
    (∀ (m : PRMetrics) (r' : ℕ), m.review_rounds ≤ r' →
      (score_pr { m with review_rounds := r' }).1 ≤ (score_pr m).1) ∧
    (∀ (m : PRMetrics) (c c' : ℝ), c ≤ c' →
      (score_pr { m with churn_ratio := some c' }).1 ≤
        (score_pr { m with churn_ratio := some c }).1) ∧
    (∀ (m : PRMetrics) (t t' : ℝ), t ≤ t' →
      (score_pr { m with time_to_first_review_hours := some t' }).1 ≤
        (score_pr { m with time_to_first_review_hours := some t }).1) ∧
    (∀ (m : PRMetrics) (t t' : ℝ), t ≤ t' →
      (score_pr { m with time_to_merge_hours := some t' }).1 ≤
        (score_pr { m with time_to_merge_hours := some t }).1) ∧
    (∀ m : PRMetrics,
      (score_pr { m with ci_failed := true }).1 ≤ (score_pr { m with ci_failed := false }).1) := by
  refine ⟨?_, ?_, ?_, ?_, ?_, ?_, ?_⟩
  · intro m a' d' h
    apply score_pr_le_of_risk
    refine pr_risk_le_of_components ?_ ?_ ?_ ?_ ?_ ?_ ?_ <;> dsimp only
    · exact size_risk_mono h
    all_goals exact le_refl _
  · intro m f' h
    apply score_pr_le_of_risk
    refine pr_risk_le_of_components ?_ ?_ ?_ ?_ ?_ ?_ ?_ <;> dsimp only
    · exact le_refl _
    · exact files_risk_mono h
    all_goals exact le_refl _
  · intro m r' h
    apply score_pr_le_of_risk
    refine pr_risk_le_of_components ?_ ?_ ?_ ?_ ?_ ?_ ?_ <;> dsimp only
    · exact le_refl _
    · exact le_refl _
    · exact review_rounds_risk_mono h
    all_goals exact le_refl _
  · intro m c c' h
    apply score_pr_le_of_risk
    refine pr_risk_le_of_components ?_ ?_ ?_ ?_ ?_ ?_ ?_ <;> dsimp only
    · exact le_refl _
    · exact le_refl _
    · exact le_refl _
    · exact churn_risk_mono h
    all_goals exact le_refl _
  · intro m t t' h
    apply score_pr_le_of_risk
    refine pr_risk_le_of_components ?_ ?_ ?_ ?_ ?_ ?_ ?_ <;> dsimp only
    · exact le_refl _
    · exact le_refl _
    · exact le_refl _
    · exact le_refl _
    · exact tfr_risk_mono h
    all_goals exact le_refl _
  · intro m t t' h
    apply score_pr_le_of_risk
    refine pr_risk_le_of_components ?_ ?_ ?_ ?_ ?_ ?_ ?_ <;> dsimp only
    · exact le_refl _
    · exact le_refl _
    · exact le_refl _
    · exact le_refl _
    · exact le_refl _
    · exact ttm_risk_mono h
    · exact le_refl _
  · intro m
    apply score_pr_le_of_risk
    refine pr_risk_le_of_components ?_ ?_ ?_ ?_ ?_ ?_ ?_ <;> dsimp only
    · exact le_refl _
    · exact le_refl _
    · exact le_refl _
    · exact le_refl _
    · exact le_refl _
    · exact le_refl _
    · norm_num [ci_risk]

/-- Witness for C2 at concrete metric records: growing the size from 150 to
200 lines, and flipping `ci_failed` from false to true, never increases the
score. -/
theorem score_pr_monotone_witness :
    (score_pr ⟨200, 0, 5, 0, some 0, some 2, some 10, false⟩).1 ≤
      (score_pr ⟨150, 0, 5, 0, some 0, some 2, some 10, false⟩).1 ∧
    (score_pr ⟨150, 0, 5, 0, some 0, some 2, some 10, true⟩).1 ≤
      (score_pr ⟨150, 0, 5, 0, some 0, some 2, some 10, false⟩).1 :=
  ⟨score_pr_monotone.1 ⟨150, 0, 5, 0, some 0, some 2, some 10, false⟩ 200 0 (by norm_num),
   score_pr_monotone.2.2.2.2.2.2 ⟨150, 0, 5, 0, some 0, some 2, some 10, false⟩⟩

theorem log_2048_eq : Real.log 2048 = 11 * Real.log 2 := by
  rw [show (2048 : ℝ) = 2 ^ 11 by norm_num, Real.log_pow]
  norm_num

theorem log_151_gt : (5 : ℝ) < Real.log 151 := by
  rw [Real.lt_log_iff_exp_lt (by norm_num : (0 : ℝ) < 151)]
  have h5 : Real.exp 5 = Real.exp 1 ^ 5 := by
    rw [← Real.exp_nat_mul]
    norm_num
  rw [h5]
  calc Real.exp 1 ^ 5 < 2.7182818286 ^ 5 :=
        pow_lt_pow_left₀ Real.exp_one_lt_d9 (le_of_lt (Real.exp_pos 1)) (by norm_num)
    _ < 151 := by norm_num

theorem log_2001_lt : Real.log 2001 < 7.6246189888 := by
  have h1 : Real.log 2001 < Real.log 2048 := Real.log_lt_log (by norm_num) (by norm_num)
  have h3 : Real.log 2 < 0.6931471808 := Real.log_two_lt_d9
  rw [log_2048_eq] at h1
  nlinarith

theorem log_2001_gt : (7.6006189833 : ℝ) < Real.log 2001 := by
  have h1 : Real.log 2000 < Real.log 2001 := Real.log_lt_log (by norm_num) (by norm_num)
  have h2 : Real.log 2048 = Real.log 2000 + Real.log 1.024 := by
    rw [show (2048 : ℝ) = 2000 * 1.024 by norm_num,
      Real.log_mul (by norm_num) (by norm_num)]
  have h3 : Real.log 1.024 ≤ 0.024 := by
    have h := Real.log_le_sub_one_of_pos (show (0 : ℝ) < 1.024 by norm_num)
    linarith
  have h4 : (0.6931471803 : ℝ) < Real.log 2 := Real.log_two_gt_d9
  have h5 := log_2048_eq
  nlinarith

theorem log_151_lt : Real.log 151 < 4 + 151 / (2.7182818283 : ℝ) ^ 5 := by
  have hexp : (2.7182818283 : ℝ) ^ 5 < Real.exp 5 := by
    have h5 : Real.exp 5 = Real.exp 1 ^ 5 := by
      rw [← Real.exp_nat_mul]
      norm_num
    rw [h5]
    exact pow_lt_pow_left₀ Real.exp_one_gt_d9 (by norm_num) (by norm_num)
  have hlog : Real.log (151 / Real.exp 5) ≤ 151 / Real.exp 5 - 1 :=
    Real.log_le_sub_one_of_pos (by positivity)
  have heq : Real.log (151 / Real.exp 5) = Real.log 151 - 5 := by
    rw [Real.log_div (by norm_num) (Real.exp_ne_zero 5), Real.log_exp]
  have hdiv : 151 / Real.exp 5 < 151 / (2.7182818283 : ℝ) ^ 5 :=
    div_lt_div_of_pos_left (by norm_num) (by positivity) hexp
  linarith

theorem exampleA_risk_bounds : 0.15 < pr_risk exampleA ∧ pr_risk exampleA < 0.16 := by
  have hp : (0 : ℝ) < Real.log 2001 := Real.log_pos (by norm_num)
  have hL_lo : (943 / 1440 : ℝ) < Real.log 151 / Real.log 2001 := by
    rw [lt_div_iff₀ hp]
    nlinarith [log_2001_lt, log_151_gt]
  have hL_hi : Real.log 151 / Real.log 2001 < 1015 / 1440 := by
    rw [div_lt_iff₀ hp]
    have hU : (4 : ℝ) + 151 / (2.7182818283 : ℝ) ^ 5 < 1015 / 1440 * 7.6006189833 := by
      norm_num
    nlinarith [log_151_lt, log_2001_gt]
  have hsz_eq : size_risk 150 0 = clamp (Real.log 151 / Real.log 2001) 0 1 := by
    simp only [size_risk]
    norm_num
  have hsz_lo : (943 / 1440 : ℝ) < size_risk 150 0 := by
    rw [hsz_eq]
    simp only [clamp]
    exact lt_of_lt_of_le (lt_min (by norm_num) hL_lo) (le_max_right _ _)
  have hsz_hi : size_risk 150 0 < 1015 / 1440 := by
    rw [hsz_eq]
    simp only [clamp]
    exact max_lt (by norm_num) (lt_of_le_of_lt (min_le_right _ _) hL_hi)
  have hfiles : files_risk 5 = 1 / 10 := by
    simp only [files_risk, clamp]
    rw [min_eq_right (by norm_num), max_eq_right (by norm_num)]
    norm_num
  have hrounds : review_rounds_risk 0 = 0 := by
    simp only [review_rounds_risk, clamp]
    rw [min_eq_right (by norm_num), max_eq_right (by norm_num)]
    norm_num
  have hchurn : churn_risk (some 0) = 0 := by
    simp only [churn_risk, clamp, Option.getD_some]
    rw [min_eq_right (by norm_num), max_eq_right (by norm_num)]
    norm_num
  have htfr : tfr_risk (some 2) = 1 / 36 := by
    simp only [tfr_risk, clamp]
    rw [min_eq_right (by norm_num), max_eq_right (by norm_num)]
    norm_num
  have httm : ttm_risk (some 10) = 1 / 24 := by
    simp only [ttm_risk, clamp]
    rw [min_eq_right (by norm_num), max_eq_right (by norm_num)]
    norm_num
  have hci : ci_risk false = 0 := by norm_num [ci_risk]
  constructor
  · simp only [pr_risk, exampleA]
    rw [hfiles, hrounds, hchurn, htfr, httm, hci]
    linarith [hsz_lo]
  · simp only [pr_risk, exampleA]
    rw [hfiles, hrounds, hchurn, htfr, httm, hci]
    linarith [hsz_hi]

/-- Claim C4 counterexample: on the Example A metrics the code returns a
score of about 84.9, which is strictly below 85, so "score > 85" fails. -/
theorem exampleA_score_lt_85 : (score_pr exampleA).1 < 85 := by
  have h := exampleA_risk_bounds
  simp only [score_pr, clamp]
  apply max_lt (by norm_num)
  apply lt_of_le_of_lt (min_le_right _ _)
  linarith [h.1]

/-- Claim C4 (amended): on the Example A metrics the returned score is
strictly greater than 84 (the exact value is just below 85, not above
it). -/
theorem exampleA_score_gt_84 : 84 < (score_pr exampleA).1 := by
  have h := exampleA_risk_bounds
  simp only [score_pr, clamp]
  have hv : (84 : ℝ) < 100 * (1 - pr_risk exampleA) := by linarith [h.2]
  exact lt_of_lt_of_le (lt_min (by norm_num) hv) (le_max_right _ _)

theorem merged_before_iff (ad : ℤ) (pr : PREntry) :
    merged_before ad pr = true ↔ ∃ m, pr.merged_at = some m ∧ m < ad := by
  cases h : pr.merged_at <;> simp [merged_before, h]

theorem merged_after_iff (ad : ℤ) (pr : PREntry) :
    merged_after ad pr = true ↔ ∃ m, pr.merged_at = some m ∧ ad ≤ m := by
  cases h : pr.merged_at <;> simp [merged_after, h]

theorem format_delta_cases (x y : Option ℚ) :
    (((format_delta x y).1 = none ∨ (format_delta x y).2.1 = none) →
      (format_delta x y).1 = none ∧ (format_delta x y).2.1 = none ∧
        (format_delta x y).2.2 = none) ∧
    (∀ b a : ℚ, (format_delta x y).1 = some b → (format_delta x y).2.1 = some a →
      (format_delta x y).2.2 = some (a - b)) := by
  cases x <;> cases y <;> simp [format_delta]

/-- Claim C6: with an adoption timestamp, `build_deltas` puts a PR in the
"before" partition exactly when its merge timestamp is strictly earlier than
the adoption timestamp and in the "after" partition exactly when it is at or
later than it; and in every emitted record, if either side is absent then
before, after and delta are all absent, and otherwise delta equals after
minus before. -/
theorem build_deltas_adoption_spec (prs : List PREntry) (ad : ℤ) :
    (∀ pr : PREntry, pr ∈ before_prs prs ad ↔
        pr ∈ prs ∧ ∃ m, pr.merged_at = some m ∧ m < ad) ∧
    (∀ pr : PREntry, pr ∈ after_prs prs ad ↔
        pr ∈ prs ∧ ∃ m, pr.merged_at = some m ∧ ad ≤ m) ∧
    (∀ rec ∈ build_deltas prs (some ad),
      ((rec.before = none ∨ rec.after = none) →
        rec.before = none ∧ rec.after = none ∧ rec.delta = none) ∧
      (∀ b a : ℚ, rec.before = some b → rec.after = some a →
        rec.delta = some (a - b))) := by
  refine ⟨?_, ?_, ?_⟩
  · intro pr
    rw [before_prs, List.mem_filter, merged_before_iff]
  · intro pr
    rw [after_prs, List.mem_filter, merged_after_iff]
  · intro rec hrec
    simp only [build_deltas, List.mem_cons, List.not_mem_nil, or_false] at hrec
    rcases hrec with rfl | rfl | rfl | rfl <;> exact format_delta_cases _ _

/-- Witness for C6 at a concrete input: one PR merged before day 10 and one
merged at day 10, with the delta record relation checked on the first
emitted record. -/
theorem build_deltas_adoption_spec_witness :
    (⟨30, false, none, 40, some 5⟩ : PREntry) ∈
        before_prs [⟨30, false, none, 40, some 5⟩, ⟨50, true, none, 60, some 10⟩] 10 ∧
    (⟨50, true, none, 60, some 10⟩ : PREntry) ∈
        after_prs [⟨30, false, none, 40, some 5⟩, ⟨50, true, none, 60, some 10⟩] 10 := by
  have h := build_deltas_adoption_spec
    [⟨30, false, none, 40, some 5⟩, ⟨50, true, none, 60, some 10⟩] 10
  exact ⟨(h.1 _).mpr (by refine ⟨by simp, 5, rfl, by norm_num⟩),
         (h.2.1 _).mpr (by refine ⟨by simp, 10, rfl, by norm_num⟩)⟩

/-- Claim C7: `build_deltas` with no adoption timestamp returns exactly the
four tracked delta records, in order Median Score, CI Fail Rate, Median
Churn, Median Size, with before, after and delta all absent. -/
theorem build_deltas_no_adoption (prs : List PREntry) :
    build_deltas prs none =
      [⟨"Median Score", none, none, none⟩,
       ⟨"CI Fail Rate", none, none, none⟩,
       ⟨"Median Churn", none, none, none⟩,
       ⟨"Median Size", none, none, none⟩] :=
  rfl

/-- Claim C8, showing the divergence: `main`'s extraction loop has no
per-PR error handling, so a malformed merge timestamp on PR 2 raises a bare
`ValueError` that aborts the whole run, even though PR 1 on its own
extracts fine — its already-computed result is not retained. -/
theorem process_prs_aborts_on_malformed :
    process_prs [⟨1, RawTS.valid 7200, RawTS.valid 3600⟩, ⟨2, RawTS.malformed, RawTS.valid 60⟩]
        = Except.error PyError.valueError ∧
      extract_pr ⟨1, RawTS.valid 7200, RawTS.valid 3600⟩
        = Except.ok ⟨1, some 7200, some 3600, some 1⟩ := by
  constructor
  · rfl
  · norm_num [extract_pr, parse_iso8601]

/-- Claim C9, showing the divergence: the weekly lookback cutoff `since` is
derived from an ambient `dt.datetime.now()` reading inside `main`
(line 667), not from an injected parameter, so the same PR data (a PR
merged at day 100, 12-month lookback) is bucketed differently depending on
the wall-clock time at which the run happens. -/
theorem lookback_depends_on_ambient_now :
    in_lookback (some 100) 200 12 = true ∧ in_lookback (some 100) 1000 12 = false := by
  decide

theorem review_times_all_null (author : String) (reviews : List Review)
    (h : ∀ r ∈ reviews, r.user_login ≠ some author → r.submitted_at = RawTS.null) :
    review_times reviews author = Except.ok [] := by
  induction reviews with
  | nil => rfl
  | cons r rest ih =>
    have hrest := ih fun r' hr' => h r' (List.mem_cons_of_mem _ hr')
    by_cases hu : r.user_login = some author
    · simp [review_times, hu, hrest]
    · have hnull := h r (List.mem_cons_self _ _) hu
      simp [review_times, hu, hnull, parse_iso8601, hrest]

/-- Claim C10: `compute_first_review_time` silently skips a non-author
review whose `submitted_at` is missing or empty, and returns an absent
value rather than raising whenever no non-author review carries a
submission timestamp, even if non-author reviews exist. -/
theorem first_review_time_skips_missing (author : String) :
    (∀ (r : Review) (rest : List Review), r.user_login ≠ some author →
        r.submitted_at = RawTS.null →
        compute_first_review_time (r :: rest) author =
          compute_first_review_time rest author) ∧
    (∀ reviews : List Review,
        (∀ r ∈ reviews, r.user_login ≠ some author → r.submitted_at = RawTS.null) →
        compute_first_review_time reviews author = Except.ok none) := by
  constructor
  · intro r rest hne hnull
    simp [compute_first_review_time, review_times, hne, hnull, parse_iso8601]
  · intro reviews h
    simp [compute_first_review_time, review_times_all_null author reviews h]

/-- Witness for C10: a non-author review with an empty `submitted_at`, an
author review with a (malformed) timestamp, and no raising: the result is
an absent first-review time. -/
theorem first_review_time_skips_missing_witness :
    compute_first_review_time
        [⟨some ("alice"), ("APPROVED"), RawTS.null⟩,
         ⟨some ("bob"), ("COMMENTED"), RawTS.malformed⟩] ("bob")
      = Except.ok none := by
  apply (first_review_time_skips_missing ("bob")).2
  intro r hr hne
  simp only [List.mem_cons, List.not_mem_nil, or_false] at hr
  rcases hr with rfl | rfl
  · rfl
  · exact absurd rfl hne
